import Mathlib

/-!
Verification development for the lidar-pc numerical-geometry pipeline:
keyframe selection (`capture.py`), monocular pose tracking (`tracking.py`),
rotation/quaternion conversion (`utils.py`) and multi-view reconstruction
(`reconstruction.py`).

Modelling conventions:
* Python floats are modelled as real numbers; pixel values and thresholds
  that only ever meet comparisons are modelled as rationals so that the
  keyframe decision stays executable.
* OpenCV calls (image decoding, ORB feature detection, descriptor matching,
  essential-matrix estimation, pose recovery, triangulation) are opaque
  external collaborators; their per-step outcome is abstracted into an
  observation datatype that the embedded control flow consumes exactly the
  way the Python code consumes the corresponding return values.
* Optional native capabilities (open3d, trimesh) are modelled in their
  absent state (the `ModuleNotFoundError` path of `run_reconstruction`),
  where the accumulated cloud is written unchanged and no mesh is produced.
-/

/-! ## Keyframe selection (`src/lidar_pc/capture.py`) -/

/-- Mean absolute pixel difference between two grayscale images, the
`float(np.mean(cv2.absdiff(prev_gray, current_gray)))` of `capture.py`
(images flattened to pixel lists). -/
def meanAbsDiff (prev current : List ℚ) : ℚ :=
  ((List.zipWith (fun p q => |p - q|) prev current).foldl (· + ·) 0) / (prev.length : ℚ)

/-- `should_keep_keyframe` from `src/lidar_pc/capture.py` lines 35-51. -/
def should_keep_keyframe (prev_gray : Option (List ℚ)) (current_gray : List ℚ)
    (frame_index : ℕ) (frame_interval : ℤ) (pixel_delta_threshold : ℚ)
    (blur_score : ℚ) (blur_threshold : ℚ) : Bool :=
  if frame_index = 0 then
    true
  else if blur_score < blur_threshold then
    false
  else
    match prev_gray with
    | none => (frame_index : ℤ) % max frame_interval 1 == 0
    | some prev =>
      let delta := meanAbsDiff prev current_gray
      ((frame_index : ℤ) % max frame_interval 1 == 0) && decide (delta ≥ pixel_delta_threshold)

/-! ## Tracking-state classification (`src/lidar_pc/tracking.py`) -/

/-- `_tracking_state` from `src/lidar_pc/tracking.py` lines 21-26. -/
def tracking_state (inliers : ℤ) (min_inliers : ℤ) : String :=
  if inliers ≥ min_inliers * 2 then "good"
  else if inliers ≥ min_inliers then "limited"
  else "lost"

/-! ## Geometry data model -/

/-- A 3-vector of reals (a row of `np.float64` values). -/
@[ext]
structure Vec3 where
  x : ℝ
  y : ℝ
  z : ℝ

/-- A dense 3x3 real matrix, entry `mRC` at row `R`, column `C`. -/
@[ext]
structure Mat3 where
  m00 : ℝ
  m01 : ℝ
  m02 : ℝ
  m10 : ℝ
  m11 : ℝ
  m12 : ℝ
  m20 : ℝ
  m21 : ℝ
  m22 : ℝ

/-- A quaternion stored in `(x, y, z, w)` order, as in the repository. -/
@[ext]
structure QuatXYZW where
  x : ℝ
  y : ℝ
  z : ℝ
  w : ℝ

def Vec3.zero : Vec3 := ⟨0, 0, 0⟩

def Vec3.add (u v : Vec3) : Vec3 := ⟨u.x + v.x, u.y + v.y, u.z + v.z⟩

def Vec3.smul (c : ℝ) (v : Vec3) : Vec3 := ⟨c * v.x, c * v.y, c * v.z⟩

/-- `np.linalg.norm` of a 3-vector. -/
noncomputable def Vec3.norm (v : Vec3) : ℝ :=
  Real.sqrt (v.x * v.x + v.y * v.y + v.z * v.z)

def Mat3.id : Mat3 := ⟨1, 0, 0, 0, 1, 0, 0, 0, 1⟩

def Mat3.mul (M N : Mat3) : Mat3 :=
  ⟨M.m00 * N.m00 + M.m01 * N.m10 + M.m02 * N.m20,
   M.m00 * N.m01 + M.m01 * N.m11 + M.m02 * N.m21,
   M.m00 * N.m02 + M.m01 * N.m12 + M.m02 * N.m22,
   M.m10 * N.m00 + M.m11 * N.m10 + M.m12 * N.m20,
   M.m10 * N.m01 + M.m11 * N.m11 + M.m12 * N.m21,
   M.m10 * N.m02 + M.m11 * N.m12 + M.m12 * N.m22,
   M.m20 * N.m00 + M.m21 * N.m10 + M.m22 * N.m20,
   M.m20 * N.m01 + M.m21 * N.m11 + M.m22 * N.m21,
   M.m20 * N.m02 + M.m21 * N.m12 + M.m22 * N.m22⟩

def Mat3.transpose (M : Mat3) : Mat3 :=
  ⟨M.m00, M.m10, M.m20, M.m01, M.m11, M.m21, M.m02, M.m12, M.m22⟩

def Mat3.mulVec (M : Mat3) (v : Vec3) : Vec3 :=
  ⟨M.m00 * v.x + M.m01 * v.y + M.m02 * v.z,
   M.m10 * v.x + M.m11 * v.y + M.m12 * v.z,
   M.m20 * v.x + M.m21 * v.y + M.m22 * v.z⟩

def Mat3.trace (M : Mat3) : ℝ := M.m00 + M.m11 + M.m22

def Mat3.det (M : Mat3) : ℝ :=
  M.m00 * (M.m11 * M.m22 - M.m12 * M.m21)
    - M.m01 * (M.m10 * M.m22 - M.m12 * M.m20)
    + M.m02 * (M.m10 * M.m21 - M.m11 * M.m20)

/-- Classical adjugate (transpose of the cofactor matrix). -/
def Mat3.adjugate (M : Mat3) : Mat3 :=
  ⟨M.m11 * M.m22 - M.m12 * M.m21,
   M.m02 * M.m21 - M.m01 * M.m22,
   M.m01 * M.m12 - M.m02 * M.m11,
   M.m12 * M.m20 - M.m10 * M.m22,
   M.m00 * M.m22 - M.m02 * M.m20,
   M.m02 * M.m10 - M.m00 * M.m12,
   M.m10 * M.m21 - M.m11 * M.m20,
   M.m01 * M.m20 - M.m00 * M.m21,
   M.m00 * M.m11 - M.m01 * M.m10⟩

/-! ## Rotation/quaternion conversion (`src/lidar_pc/utils.py`) -/

open Classical in
/-- The four-branch Shepperd extraction of `rotation_matrix_to_quaternion_xyzw`
(`utils.py` lines 74-100), before the final renormalization. -/
noncomputable def shepperdQuat (m : Mat3) : QuatXYZW :=
  let trace := m.m00 + m.m11 + m.m22
  if trace > 0 then
    let s := Real.sqrt (trace + 1.0) * 2.0
    ⟨(m.m21 - m.m12) / s, (m.m02 - m.m20) / s, (m.m10 - m.m01) / s, 0.25 * s⟩
  else if m.m00 > m.m11 ∧ m.m00 > m.m22 then
    let s := Real.sqrt (1.0 + m.m00 - m.m11 - m.m22) * 2.0
    ⟨0.25 * s, (m.m01 + m.m10) / s, (m.m02 + m.m20) / s, (m.m21 - m.m12) / s⟩
  else if m.m11 > m.m22 then
    let s := Real.sqrt (1.0 + m.m11 - m.m00 - m.m22) * 2.0
    ⟨(m.m01 + m.m10) / s, 0.25 * s, (m.m12 + m.m21) / s, (m.m02 - m.m20) / s⟩
  else
    let s := Real.sqrt (1.0 + m.m22 - m.m00 - m.m11) * 2.0
    ⟨(m.m02 + m.m20) / s, (m.m12 + m.m21) / s, 0.25 * s, (m.m10 - m.m01) / s⟩

open Classical in
/-- The renormalization tail of `rotation_matrix_to_quaternion_xyzw`
(`utils.py` lines 102-105): guard against a zero norm, else divide. -/
noncomputable def renormalizeQuat (q : QuatXYZW) : QuatXYZW :=
  let norm := Real.sqrt (q.x * q.x + q.y * q.y + q.z * q.z + q.w * q.w)
  if norm = 0 then ⟨0, 0, 0, 1⟩
  else ⟨q.x / norm, q.y / norm, q.z / norm, q.w / norm⟩

/-- `rotation_matrix_to_quaternion_xyzw` from `src/lidar_pc/utils.py`
lines 74-105. -/
noncomputable def rotation_matrix_to_quaternion_xyzw (m : Mat3) : QuatXYZW :=
  renormalizeQuat (shepperdQuat m)

open Classical in
/-- `quaternion_xyzw_to_rotation_matrix` from `src/lidar_pc/utils.py`
lines 108-124. -/
noncomputable def quaternion_xyzw_to_rotation_matrix (q : QuatXYZW) : Mat3 :=
  let n := q.x * q.x + q.y * q.y + q.z * q.z + q.w * q.w
  if n < 1e-12 then Mat3.id
  else
    let s := 2.0 / n
    let xx := q.x * q.x * s
    let xy := q.x * q.y * s
    let xz := q.x * q.z * s
    let yy := q.y * q.y * s
    let yz := q.y * q.z * s
    let zz := q.z * q.z * s
    let wx := q.w * q.x * s
    let wy := q.w * q.y * s
    let wz := q.w * q.z * s
    ⟨1.0 - (yy + zz), xy - wz, xz + wy,
     xy + wz, 1.0 - (xx + zz), yz - wx,
     xz - wy, yz + wx, 1.0 - (xx + yy)⟩

/-! ## Pose tracking (`src/lidar_pc/tracking.py`) -/

/-- The fields of a `FrameRecord` that `run_tracking` copies into poses.
The image payload behind `relative_rgb_path` is abstracted into `StepObs`. -/
structure FrameRec where
  frame_index : ℤ
  keyframe_index : ℤ

/-- `TrajectoryPose` from `src/lidar_pc/models.py` as emitted by tracking. -/
structure TrajectoryPose where
  frame_index : ℤ
  keyframe_index : ℤ
  translation_m : Vec3
  quaternion_xyzw : QuatXYZW
  tracking_state : String

instance : Inhabited TrajectoryPose :=
  ⟨⟨0, 0, Vec3.zero, ⟨0, 0, 0, 1⟩, "good"⟩⟩

/-- Outcome of the OpenCV feature/geometry calls for one keyframe pair in
`run_tracking` (lines 58-127): each constructor is one early-exit condition
of the loop body, and `recovered` carries what `cv2.recoverPose` returns. -/
inductive StepObs where
  | unreadable : StepObs
  | insufficient_features : StepObs
  | insufficient_matches : StepObs
  | essential_failed : StepObs
  | recovered : ℤ → Mat3 → Vec3 → StepObs

/-- Accumulated world pose (`world_rotation`, `world_translation`). -/
structure World where
  rotation : Mat3
  translation : Vec3

def initialWorld : World := ⟨Mat3.id, Vec3.zero⟩

/-- One iteration of the `run_tracking` loop (lines 54-145): returns the
world pose carried to the next iteration and the pose appended for the
current keyframe. -/
noncomputable def trackStep (min_inliers : ℤ) (step_scale_m : ℝ) (w : World)
    (rec : FrameRec) (ob : StepObs) : World × TrajectoryPose :=
  match ob with
  | .recovered inliers rel_rotation rel_translation =>
    let state := tracking_state inliers min_inliers
    let w' : World :=
      if state ≠ "lost" then
        let norm := rel_translation.norm
        let rel_t := if norm > 1e-8
          then Vec3.smul (step_scale_m / norm) rel_translation
          else rel_translation
        ⟨w.rotation.mul rel_rotation, w.translation.add (w.rotation.mulVec rel_t)⟩
      else w
    (w', ⟨rec.frame_index, rec.keyframe_index, w'.translation,
          rotation_matrix_to_quaternion_xyzw w'.rotation, state⟩)
  | _ =>
    (w, ⟨rec.frame_index, rec.keyframe_index, w.translation,
         rotation_matrix_to_quaternion_xyzw w.rotation, "lost"⟩)

/-- The initial pose appended for keyframe 0 (lines 44-52). -/
def initialPose (r : FrameRec) : TrajectoryPose :=
  ⟨r.frame_index, r.keyframe_index, ⟨0, 0, 0⟩, ⟨0, 0, 0, 1⟩, "good"⟩

/-- The tracking loop over the keyframes of index `idx, idx+1, ...`. -/
noncomputable def trackGo (min_inliers : ℤ) (step_scale_m : ℝ) (obs : ℕ → StepObs) :
    World → ℕ → List FrameRec → List TrajectoryPose
  | _, _, [] => []
  | w, idx, r :: rest =>
    let wp := trackStep min_inliers step_scale_m w r (obs idx)
    wp.2 :: trackGo min_inliers step_scale_m obs wp.1 (idx + 1) rest

/-- `run_tracking` from `src/lidar_pc/tracking.py` lines 29-165, with the
per-pair OpenCV outcome at loop index `idx` supplied by `obs idx`.  The
Python code raises on an empty record list (it indexes `frame_records[0]`);
the empty case is mapped to the empty trajectory and the theorems only
quantify over non-empty record lists. -/
noncomputable def run_tracking (records : List FrameRec) (obs : ℕ → StepObs)
    (min_inliers : ℤ) (step_scale_m : ℝ) : List TrajectoryPose :=
  match records with
  | [] => []
  | r :: rest => initialPose r :: trackGo min_inliers step_scale_m obs initialWorld 1 rest

/-- The world pose after a prefix of tracking iterations (pose fold only). -/
noncomputable def worldFold (min_inliers : ℤ) (step_scale_m : ℝ) (obs : ℕ → StepObs) :
    World → ℕ → List FrameRec → World
  | w, _, [] => w
  | w, idx, r :: rest =>
    worldFold min_inliers step_scale_m obs
      (trackStep min_inliers step_scale_m w r (obs idx)).1 (idx + 1) rest

/-- Accumulated world pose after the tracking step for keyframe `i`
(`worldAfter _ _ _ _ 0` is the initial identity/zero pose). -/
noncomputable def worldAfter (records : List FrameRec) (obs : ℕ → StepObs)
    (min_inliers : ℤ) (step_scale_m : ℝ) (i : ℕ) : World :=
  worldFold min_inliers step_scale_m obs initialWorld 1 ((records.drop 1).take i)

/-- The early-exit and low-inlier conditions of one tracking step that the
code classifies as a lost step: unreadable image, too few keypoints or
missing descriptors, too few matches, essential-matrix failure, or an
inlier count below `min_inliers`. -/
def stepFails (min_inliers : ℤ) : StepObs → Prop
  | .recovered inliers _ _ => inliers < min_inliers
  | _ => True

/-! ## Reconstruction (`src/lidar_pc/reconstruction.py`) -/

/-- The persisted `reconstruction.json` payload (lines 161-169), minus the
constant schema tag. -/
structure ReconstructionJson where
  point_count : ℕ
  mesh_generated : Bool
  quality_profile : String

/-- Outcome of `cv2.imread` + `_triangulate_pair` for one keyframe pair:
`none` when either image is unreadable (the pair is skipped), otherwise the
triangulated local points and their sampled colors.  The first argument fed
by `run_reconstruction` is the match cap for the quality profile. -/
def PairObs := Option (List Vec3 × List (ℕ × ℕ × ℕ))

/-- The per-pair match cap `max_matches = 1200 if quality == "high" else 500`
(`reconstruction.py` line 95). -/
def max_matches (quality : String) : ℕ :=
  if quality = "high" then 1200 else 500

/-- World placement of a local triangulated point using the trajectory pose
of the pair's first keyframe (lines 111-114). -/
noncomputable def placeInWorld (pose : TrajectoryPose) (p : Vec3) : Vec3 :=
  ((quaternion_xyzw_to_rotation_matrix pose.quaternion_xyzw).mulVec p).add
    (pose.translation_m)

/-- The accumulation loop of `run_reconstruction` (lines 97-115) over the
first `k` keyframe pairs: pairs with an unreadable image or an empty
triangulation contribute nothing; any other pair appends its world-frame
points and colors. -/
noncomputable def gatherPairs (poses : List TrajectoryPose)
    (pairObs : ℕ → ℕ → PairObs) (cap : ℕ) :
    ℕ → List Vec3 × List (ℕ × ℕ × ℕ)
  | 0 => ([], [])
  | k + 1 =>
    let acc := gatherPairs poses pairObs cap k
    match pairObs cap k with
    | none => acc
    | some (pts, cols) =>
      if pts.isEmpty then acc
      else
        let pose := poses.getD k default
        (acc.1 ++ pts.map (placeInWorld pose), acc.2 ++ cols)

/-- `run_reconstruction` from `src/lidar_pc/reconstruction.py` lines 91-174,
with both optional native capabilities (open3d, trimesh) absent, which is
the `ModuleNotFoundError` path: the cloud is written unchanged by the ASCII
writer and no mesh is generated.  Returns the point cloud (points, colors)
and the persisted summary. -/
noncomputable def run_reconstruction (record_count : ℕ)
    (poses : List TrajectoryPose) (pairObs : ℕ → ℕ → PairObs)
    (quality : String) :
    (List Vec3 × List (ℕ × ℕ × ℕ)) × ReconstructionJson :=
  let cap := max_matches quality
  let acc := gatherPairs poses pairObs cap (record_count - 1)
  let cloud :=
    if acc.1.isEmpty then
      (poses.map (·.translation_m), List.replicate poses.length (180, 180, 180))
    else acc
  (cloud, ⟨cloud.1.length, false, quality⟩)

/-- A pair that contributes no triangulated point: unreadable image or an
empty triangulation result. -/
def contributesNothing (ob : PairObs) : Prop :=
  match ob with
  | none => True
  | some (pts, _) => pts = []

/-- Entrywise closeness of two matrices within tolerance `tol`. -/
def Mat3.entrywiseWithin (M N : Mat3) (tol : ℝ) : Prop :=
  |M.m00 - N.m00| ≤ tol ∧ |M.m01 - N.m01| ≤ tol ∧ |M.m02 - N.m02| ≤ tol ∧
  |M.m10 - N.m10| ≤ tol ∧ |M.m11 - N.m11| ≤ tol ∧ |M.m12 - N.m12| ≤ tol ∧
  |M.m20 - N.m20| ≤ tol ∧ |M.m21 - N.m21| ≤ tol ∧ |M.m22 - N.m22| ≤ tol

/-! ## Theorems -/

/-- C1: `should_keep_keyframe` always keeps the frame at index 0, and for
every frame of positive index a blur score strictly below the blur
threshold forces rejection, regardless of the interval and motion
conditions. -/
theorem keyframe_index0_kept_and_blur_rejected (prev_gray : Option (List ℚ))
    (current_gray : List ℚ) (frame_index : ℕ) (frame_interval : ℤ)
    (pixel_delta_threshold blur_score blur_threshold : ℚ) :
    (frame_index = 0 →
      should_keep_keyframe prev_gray current_gray frame_index frame_interval
        pixel_delta_threshold blur_score blur_threshold = true) ∧
    (0 < frame_index → blur_score < blur_threshold →
      should_keep_keyframe prev_gray current_gray frame_index frame_interval
        pixel_delta_threshold blur_score blur_threshold = false) := by
  constructor
  · intro h
    simp [should_keep_keyframe, h]
  · intro h hb
    unfold should_keep_keyframe
    rw [if_neg (by omega), if_pos hb]

/-- Witness for C1 at concrete inputs. -/
theorem keyframe_index0_kept_and_blur_rejected_witness :
    should_keep_keyframe none [] 0 4 10 0 40 = true ∧
    should_keep_keyframe none [] 5 4 10 3 40 = false :=
  ⟨(keyframe_index0_kept_and_blur_rejected none [] 0 4 10 0 40).1 rfl,
   (keyframe_index0_kept_and_blur_rejected none [] 5 4 10 3 40).2
     (by norm_num) (by norm_num)⟩

/-- C5: for a nonnegative inlier count `n`, `_tracking_state` returns
`"good"` iff `n ≥ 2·min_inliers`, `"limited"` iff
`min_inliers ≤ n < 2·min_inliers`, and `"lost"` iff `n < min_inliers`. -/
theorem tracking_state_classification (n m : ℤ) (hn : 0 ≤ n) :
    (tracking_state n m = "good" ↔ 2 * m ≤ n) ∧
    (tracking_state n m = "limited" ↔ m ≤ n ∧ n < 2 * m) ∧
    (tracking_state n m = "lost" ↔ n < m) := by
  unfold tracking_state
  split_ifs with h1 h2
  · exact ⟨⟨fun _ => by omega, fun _ => rfl⟩,
      ⟨fun h => absurd h (by decide), fun h => absurd h1 (by omega)⟩,
      ⟨fun h => absurd h (by decide), fun h => absurd h1 (by omega)⟩⟩
  · exact ⟨⟨fun h => absurd h (by decide), fun h => absurd h1 (by omega)⟩,
      ⟨fun _ => by omega, fun _ => rfl⟩,
      ⟨fun h => absurd h (by decide), fun h => absurd h2 (by omega)⟩⟩
  · exact ⟨⟨fun h => absurd h (by decide), fun h => absurd h1 (by omega)⟩,
      ⟨fun h => absurd h (by decide), fun h => absurd h2 (by omega)⟩,
      ⟨fun _ => by omega, fun _ => rfl⟩⟩

/-- Witness for C5 at a concrete inlier count and threshold. -/
theorem tracking_state_classification_witness :
    (tracking_state 100 30 = "good" ↔ 2 * 30 ≤ (100 : ℤ)) ∧
    (tracking_state 100 30 = "limited" ↔ (30 : ℤ) ≤ 100 ∧ (100 : ℤ) < 2 * 30) ∧
    (tracking_state 100 30 = "lost" ↔ (100 : ℤ) < 30) :=
  tracking_state_classification 100 30 (by norm_num)

/-- C9: negating all four quaternion components leaves
`quaternion_xyzw_to_rotation_matrix` unchanged, entrywise and on the
degenerate branch alike. -/
theorem quaternion_negation_same_rotation (q : QuatXYZW) :
    quaternion_xyzw_to_rotation_matrix ⟨-q.x, -q.y, -q.z, -q.w⟩ =
      quaternion_xyzw_to_rotation_matrix q := by
  obtain ⟨x, y, z, w⟩ := q
  simp only [quaternion_xyzw_to_rotation_matrix]
  rw [show -x * -x + -y * -y + -z * -z + -w * -w
      = x * x + y * y + z * z + w * w from by ring]
  split_ifs with h
  · rfl
  · ext <;> ring

/-- C8: the division guards of the two conversion functions: a zero norm in
the renormalization tail of `rotation_matrix_to_quaternion_xyzw` yields the
identity quaternion, and a squared norm below `1e-12` makes
`quaternion_xyzw_to_rotation_matrix` return the identity matrix; neither
branch divides. -/
theorem quaternion_division_guards :
    (∀ q : QuatXYZW,
      Real.sqrt (q.x * q.x + q.y * q.y + q.z * q.z + q.w * q.w) = 0 →
        renormalizeQuat q = ⟨0, 0, 0, 1⟩) ∧
    (∀ q : QuatXYZW,
      q.x * q.x + q.y * q.y + q.z * q.z + q.w * q.w < 1e-12 →
        quaternion_xyzw_to_rotation_matrix q = Mat3.id) := by
  constructor
  · intro q h
    simp only [renormalizeQuat]
    rw [if_pos h]
  · intro q h
    simp only [quaternion_xyzw_to_rotation_matrix]
    rw [if_pos h]

/-- Witness for C8 at the zero quaternion. -/
theorem quaternion_division_guards_witness :
    renormalizeQuat ⟨0, 0, 0, 0⟩ = ⟨0, 0, 0, 1⟩ ∧
    quaternion_xyzw_to_rotation_matrix ⟨0, 0, 0, 0⟩ = Mat3.id :=
  ⟨quaternion_division_guards.1 ⟨0, 0, 0, 0⟩ (by simp),
   quaternion_division_guards.2 ⟨0, 0, 0, 0⟩ (by norm_num)⟩

/-- C10: the per-pair match cap is 1200 exactly for the quality string
`"high"` and 500 for every other string, no string is rejected, and the
quality string is recorded verbatim in the persisted summary. -/
theorem quality_cap_and_profile_echo :
    max_matches "high" = 1200 ∧
    (∀ quality : String, quality ≠ "high" → max_matches quality = 500) ∧
    (∀ (record_count : ℕ) (poses : List TrajectoryPose)
        (pairObs : ℕ → ℕ → PairObs) (quality : String),
      (run_reconstruction record_count poses pairObs quality).2.quality_profile
        = quality) :=
  ⟨by simp [max_matches],
   fun q hq => by simp [max_matches, hq],
   fun _ _ _ _ => rfl⟩

/-- Witness for C10 with the quality string `"medium"`. -/
theorem quality_cap_and_profile_echo_witness :
    max_matches "high" = 1200 ∧ max_matches "medium" = 500 ∧
    (run_reconstruction 0 [] (fun _ _ => none) "medium").2.quality_profile
      = "medium" :=
  ⟨quality_cap_and_profile_echo.1,
   quality_cap_and_profile_echo.2.1 "medium" (by decide),
   quality_cap_and_profile_echo.2.2 0 [] (fun _ _ => none) "medium"⟩

theorem gatherPairs_of_no_contribution (poses : List TrajectoryPose)
    (pairObs : ℕ → ℕ → PairObs) (cap : ℕ) :
    ∀ K : ℕ, (∀ k, k < K → contributesNothing (pairObs cap k)) →
      gatherPairs poses pairObs cap K = ([], []) := by
  intro K
  induction K with
  | zero => intro _; rfl
  | succ k ih =>
    intro h
    have hacc := ih fun j hj => h j (by omega)
    have hk := h k (by omega)
    simp only [gatherPairs, hacc]
    cases hob : pairObs cap k with
    | none => rfl
    | some pc =>
      obtain ⟨pts, cols⟩ := pc
      rw [hob] at hk
      simp only [contributesNothing] at hk
      subst hk
      rfl

/-- C7: when no keyframe pair contributes any triangulated point, the cloud
is exactly one point per trajectory pose at that pose's translation, each
colored `(180,180,180)`; the point and color sequences have equal length
and the cloud is non-empty whenever at least one pose exists. -/
theorem reconstruction_fallback_cloud (record_count : ℕ)
    (poses : List TrajectoryPose) (pairObs : ℕ → ℕ → PairObs) (quality : String)
    (h : ∀ k, k < record_count - 1 →
      contributesNothing (pairObs (max_matches quality) k)) :
    (run_reconstruction record_count poses pairObs quality).1.1 =
      poses.map (fun p => p.translation_m) ∧
    (run_reconstruction record_count poses pairObs quality).1.2 =
      List.replicate poses.length (180, 180, 180) ∧
    (run_reconstruction record_count poses pairObs quality).1.1.length =
      (run_reconstruction record_count poses pairObs quality).1.2.length ∧
    (poses ≠ [] →
      (run_reconstruction record_count poses pairObs quality).1.1 ≠ []) := by
  have hg := gatherPairs_of_no_contribution poses pairObs (max_matches quality)
    (record_count - 1) h
  have hrun : run_reconstruction record_count poses pairObs quality =
      ((poses.map (fun p => p.translation_m),
        List.replicate poses.length (180, 180, 180)),
       ⟨(poses.map (fun p => p.translation_m)).length, false, quality⟩) := by
    unfold run_reconstruction
    simp only [hg]
    rfl
  rw [hrun]
  refine ⟨rfl, rfl, by simp, ?_⟩
  intro hne hmap
  exact hne (by simpa using hmap)

/-- Witness for C7: two keyframes, both pairs unreadable. -/
theorem reconstruction_fallback_cloud_witness :
    (run_reconstruction 2 [(default : TrajectoryPose)] (fun _ _ => none)
        "medium").1.1 =
      [(default : TrajectoryPose)].map (fun p => p.translation_m) ∧
    (run_reconstruction 2 [(default : TrajectoryPose)] (fun _ _ => none)
        "medium").1.2 =
      List.replicate [(default : TrajectoryPose)].length (180, 180, 180) ∧
    (run_reconstruction 2 [(default : TrajectoryPose)] (fun _ _ => none)
        "medium").1.1.length =
      (run_reconstruction 2 [(default : TrajectoryPose)] (fun _ _ => none)
        "medium").1.2.length ∧
    ([(default : TrajectoryPose)] ≠ ([] : List TrajectoryPose) →
      (run_reconstruction 2 [(default : TrajectoryPose)] (fun _ _ => none)
        "medium").1.1 ≠ []) :=
  reconstruction_fallback_cloud 2 [default] (fun _ _ => none) "medium"
    (fun _ _ => trivial)

theorem trackStep_indices (m : ℤ) (s : ℝ) (w : World) (r : FrameRec) (ob : StepObs) :
    (trackStep m s w r ob).2.frame_index = r.frame_index ∧
    (trackStep m s w r ob).2.keyframe_index = r.keyframe_index := by
  cases ob <;> simp [trackStep]

theorem trackGo_length (m : ℤ) (s : ℝ) (obs : ℕ → StepObs) :
    ∀ (rest : List FrameRec) (w : World) (idx : ℕ),
      (trackGo m s obs w idx rest).length = rest.length := by
  intro rest
  induction rest with
  | nil => intro w idx; rfl
  | cons r tail ih => intro w idx; simp [trackGo, ih]

theorem trackGo_map_indices (m : ℤ) (s : ℝ) (obs : ℕ → StepObs) :
    ∀ (rest : List FrameRec) (w : World) (idx : ℕ),
      (trackGo m s obs w idx rest).map (fun p => p.keyframe_index)
          = rest.map (fun rec => rec.keyframe_index) ∧
      (trackGo m s obs w idx rest).map (fun p => p.frame_index)
          = rest.map (fun rec => rec.frame_index) := by
  intro rest
  induction rest with
  | nil => intro w idx; exact ⟨rfl, rfl⟩
  | cons r tail ih =>
    intro w idx
    have h1 := ih (trackStep m s w r (obs idx)).1 (idx + 1)
    have h2 := trackStep_indices m s w r (obs idx)
    constructor
    · simp [trackGo, h1.1, h2.2]
    · simp [trackGo, h1.2, h2.1]

/-- C2: on a non-empty keyframe sequence, `run_tracking` emits exactly one
pose per keyframe in keyframe order (equal length, index lists preserved),
and the first pose has zero translation, identity quaternion `(0,0,0,1)`
and tracking state `"good"`. -/
theorem run_tracking_trajectory_shape (r : FrameRec) (rest : List FrameRec)
    (obs : ℕ → StepObs) (min_inliers : ℤ) (step_scale_m : ℝ) :
    (run_tracking (r :: rest) obs min_inliers step_scale_m).length
        = (r :: rest).length ∧
    (run_tracking (r :: rest) obs min_inliers step_scale_m).head? =
      some ⟨r.frame_index, r.keyframe_index, ⟨0, 0, 0⟩, ⟨0, 0, 0, 1⟩, "good"⟩ ∧
    (run_tracking (r :: rest) obs min_inliers step_scale_m).map
        (fun p => p.keyframe_index)
      = (r :: rest).map (fun rec => rec.keyframe_index) ∧
    (run_tracking (r :: rest) obs min_inliers step_scale_m).map
        (fun p => p.frame_index)
      = (r :: rest).map (fun rec => rec.frame_index) := by
  refine ⟨?_, rfl, ?_, ?_⟩
  · simp [run_tracking, trackGo_length]
  · simp [run_tracking, initialPose,
      (trackGo_map_indices min_inliers step_scale_m obs rest initialWorld 1).1]
  · simp [run_tracking, initialPose,
      (trackGo_map_indices min_inliers step_scale_m obs rest initialWorld 1).2]

theorem tracking_state_lost_of_below (inl m : ℤ) (hm : 0 ≤ m) (h : inl < m) :
    tracking_state inl m = "lost" := by
  unfold tracking_state
  rw [if_neg (by omega), if_neg (by omega)]

theorem trackStep_fails_eq (m : ℤ) (s : ℝ) (w : World) (r : FrameRec)
    (ob : StepObs) (hm : 0 ≤ m) (hf : stepFails m ob) :
    trackStep m s w r ob =
      (w, ⟨r.frame_index, r.keyframe_index, w.translation,
           rotation_matrix_to_quaternion_xyzw w.rotation, "lost"⟩) := by
  cases ob with
  | recovered inl relR relT =>
    have hst : tracking_state inl m = "lost" :=
      tracking_state_lost_of_below inl m hm hf
    simp [trackStep, hst]
  | unreadable => rfl
  | insufficient_features => rfl
  | insufficient_matches => rfl
  | essential_failed => rfl

theorem trackGo_get_and_world (m : ℤ) (s : ℝ) (obs : ℕ → StepObs) :
    ∀ (rest : List FrameRec) (w : World) (idx j : ℕ) (r : FrameRec),
      rest[j]? = some r →
      (trackGo m s obs w idx rest)[j]? =
        some (trackStep m s (worldFold m s obs w idx (rest.take j)) r
          (obs (idx + j))).2 ∧
      worldFold m s obs w idx (rest.take (j + 1)) =
        (trackStep m s (worldFold m s obs w idx (rest.take j)) r
          (obs (idx + j))).1 := by
  intro rest
  induction rest with
  | nil => intro w idx j r hr; simp at hr
  | cons head tail ih =>
    intro w idx j r hr
    cases j with
    | zero =>
      obtain rfl : head = r := by simpa using hr
      constructor
      · simp [trackGo, worldFold]
      · simp [worldFold]
    | succ j' =>
      have hr' : tail[j']? = some r := by simpa using hr
      have hcall := ih (trackStep m s w head (obs idx)).1 (idx + 1) j' r hr'
      have harith : idx + 1 + j' = idx + (j' + 1) := by omega
      rw [harith] at hcall
      constructor
      · have hstep : (trackGo m s obs w idx (head :: tail))[j' + 1]? =
            (trackGo m s obs (trackStep m s w head (obs idx)).1 (idx + 1)
              tail)[j']? := by
          simp [trackGo]
        rw [hstep, hcall.1]
        rfl
      · have htake : (head :: tail).take (j' + 1 + 1)
            = head :: tail.take (j' + 1) := rfl
        rw [htake]
        have hfold : worldFold m s obs w idx (head :: tail.take (j' + 1)) =
            worldFold m s obs (trackStep m s w head (obs idx)).1 (idx + 1)
              (tail.take (j' + 1)) := rfl
        rw [hfold, hcall.2]
        rfl

/-- C4: every failing tracking step (unreadable image, missing features or
descriptors, too few matches, essential-matrix failure, or an inlier count
below `min_inliers`) still emits a pose for its keyframe, carrying the
accumulated world translation and rotation of the previous step unchanged
with tracking state `"lost"`, and leaves the world pose unchanged. -/
theorem run_tracking_lost_step_carries_world (records : List FrameRec)
    (obs : ℕ → StepObs) (min_inliers : ℤ) (step_scale_m : ℝ) (i : ℕ)
    (rec : FrameRec) (hm : 0 ≤ min_inliers) (hi : 1 ≤ i)
    (hrec : records[i]? = some rec) (hfail : stepFails min_inliers (obs i)) :
    (run_tracking records obs min_inliers step_scale_m)[i]? =
      some ⟨rec.frame_index, rec.keyframe_index,
        (worldAfter records obs min_inliers step_scale_m (i - 1)).translation,
        rotation_matrix_to_quaternion_xyzw
          (worldAfter records obs min_inliers step_scale_m (i - 1)).rotation,
        "lost"⟩ ∧
    worldAfter records obs min_inliers step_scale_m i =
      worldAfter records obs min_inliers step_scale_m (i - 1) := by
  obtain ⟨j, rfl⟩ : ∃ j, i = j + 1 := ⟨i - 1, by omega⟩
  cases records with
  | nil => simp at hrec
  | cons r0 rest =>
    have hr' : rest[j]? = some rec := by simpa using hrec
    have hcall := trackGo_get_and_world min_inliers step_scale_m obs rest
      initialWorld 1 j rec hr'
    have harith : 1 + j = j + 1 := by omega
    rw [harith] at hcall
    have hfe := trackStep_fails_eq min_inliers step_scale_m
      (worldFold min_inliers step_scale_m obs initialWorld 1 (rest.take j))
      rec (obs (j + 1)) hm hfail
    constructor
    · have hskip : (run_tracking (r0 :: rest) obs min_inliers
          step_scale_m)[j + 1]? =
          (trackGo min_inliers step_scale_m obs initialWorld 1 rest)[j]? := by
        simp [run_tracking]
      rw [hskip, hcall.1, hfe]
      rfl
    · have hwa : worldAfter (r0 :: rest) obs min_inliers step_scale_m (j + 1)
          = worldFold min_inliers step_scale_m obs initialWorld 1
              (rest.take (j + 1)) := rfl
      rw [hwa, hcall.2, hfe]
      rfl

/-- Witness for C4: two keyframes with an unreadable second image. -/
theorem run_tracking_lost_step_carries_world_witness :
    (run_tracking [⟨0, 0⟩, ⟨4, 1⟩] (fun _ => StepObs.unreadable) 30 (1 / 10))[1]? =
      some ⟨(4 : ℤ), (1 : ℤ),
        (worldAfter [⟨0, 0⟩, ⟨4, 1⟩] (fun _ => StepObs.unreadable) 30
          (1 / 10) 0).translation,
        rotation_matrix_to_quaternion_xyzw
          (worldAfter [⟨0, 0⟩, ⟨4, 1⟩] (fun _ => StepObs.unreadable) 30
            (1 / 10) 0).rotation,
        "lost"⟩ ∧
    worldAfter [⟨0, 0⟩, ⟨4, 1⟩] (fun _ => StepObs.unreadable) 30 (1 / 10) 1 =
      worldAfter [⟨0, 0⟩, ⟨4, 1⟩] (fun _ => StepObs.unreadable) 30 (1 / 10) 0 :=
  run_tracking_lost_step_carries_world [⟨0, 0⟩, ⟨4, 1⟩]
    (fun _ => StepObs.unreadable) 30 (1 / 10) 1 ⟨4, 1⟩
    (by norm_num) (by norm_num) rfl trivial

theorem Vec3.norm_smul (c : ℝ) (v : Vec3) :
    (Vec3.smul c v).norm = |c| * v.norm := by
  simp only [Vec3.smul, Vec3.norm]
  rw [show c * v.x * (c * v.x) + c * v.y * (c * v.y) + c * v.z * (c * v.z)
      = c ^ 2 * (v.x * v.x + v.y * v.y + v.z * v.z) from by ring]
  rw [Real.sqrt_mul (sq_nonneg c), Real.sqrt_sq_eq_abs]

/-- C6: a tracking step classified `"good"` or `"limited"` rescales the
relative translation to magnitude `step_scale_m` and updates the world pose
by `translation += rotation · scaled_t` then `rotation := rotation · R_rel`;
a `"lost"` step leaves the world pose unchanged.  (`cv2.recoverPose` always
returns a unit-norm translation direction, reflected by `hunit`.) -/
theorem trackStep_world_update (w : World) (rec : FrameRec)
    (inliers min_inliers : ℤ) (rel_rotation : Mat3) (rel_translation : Vec3)
    (step_scale_m : ℝ) (hunit : rel_translation.norm = 1)
    (hs : 0 ≤ step_scale_m) :
    (tracking_state inliers min_inliers ≠ "lost" →
      (Vec3.smul (step_scale_m / rel_translation.norm) rel_translation).norm
          = step_scale_m ∧
      (trackStep min_inliers step_scale_m w rec
          (.recovered inliers rel_rotation rel_translation)).1 =
        ⟨w.rotation.mul rel_rotation,
         w.translation.add (w.rotation.mulVec
           (Vec3.smul (step_scale_m / rel_translation.norm)
             rel_translation))⟩) ∧
    (tracking_state inliers min_inliers = "lost" →
      (trackStep min_inliers step_scale_m w rec
          (.recovered inliers rel_rotation rel_translation)).1 = w) := by
  constructor
  · intro hstate
    constructor
    · rw [Vec3.norm_smul, hunit, div_one, abs_of_nonneg hs, mul_one]
    · simp only [trackStep]
      rw [if_pos hstate, hunit, if_pos (show (1e-8 : ℝ) < 1 by norm_num)]
  · intro hstate
    simp [trackStep, hstate]

/-- Witness for C6 at a concrete good step and a concrete lost step. -/
theorem trackStep_world_update_witness :
    (tracking_state 100 30 ≠ "lost" →
      (Vec3.smul ((1 / 10) / Vec3.norm ⟨0, 0, 1⟩) ⟨0, 0, 1⟩).norm = 1 / 10 ∧
      (trackStep 30 (1 / 10) initialWorld ⟨0, 0⟩
          (.recovered 100 Mat3.id ⟨0, 0, 1⟩)).1 =
        ⟨initialWorld.rotation.mul Mat3.id,
         initialWorld.translation.add (initialWorld.rotation.mulVec
           (Vec3.smul ((1 / 10) / Vec3.norm ⟨0, 0, 1⟩) ⟨0, 0, 1⟩))⟩) ∧
    (tracking_state 100 30 = "lost" →
      (trackStep 30 (1 / 10) initialWorld ⟨0, 0⟩
          (.recovered 100 Mat3.id ⟨0, 0, 1⟩)).1 = initialWorld) :=
  trackStep_world_update initialWorld ⟨0, 0⟩ 100 30 Mat3.id ⟨0, 0, 1⟩ (1 / 10)
    (by simp [Vec3.norm]) (by norm_num)

theorem Mat3.mul_assoc3 (A B C : Mat3) : (A.mul B).mul C = A.mul (B.mul C) := by
  ext <;> simp [Mat3.mul] <;> ring

theorem Mat3.id_mul (M : Mat3) : Mat3.id.mul M = M := by
  ext <;> simp [Mat3.mul, Mat3.id]

theorem Mat3.mul_id (M : Mat3) : M.mul Mat3.id = M := by
  ext <;> simp [Mat3.mul, Mat3.id]

theorem Mat3.adjugate_mul_self (M : Mat3) :
    M.adjugate.mul M = ⟨M.det, 0, 0, 0, M.det, 0, 0, 0, M.det⟩ := by
  ext <;> simp [Mat3.mul, Mat3.adjugate, Mat3.det] <;> ring

theorem Mat3.adjugate_eq_transpose (R : Mat3) (hO : R.mul R.transpose = Mat3.id)
    (hD : R.det = 1) : R.adjugate = R.transpose := by
  have hassoc := Mat3.mul_assoc3 R.adjugate R R.transpose
  rw [hO, Mat3.mul_id, Mat3.adjugate_mul_self, hD] at hassoc
  have hlit : ((⟨1, 0, 0, 0, 1, 0, 0, 0, 1⟩ : Mat3)) = Mat3.id := rfl
  rw [hlit, Mat3.id_mul] at hassoc
  exact hassoc.symm

theorem Mat3.transpose_mul_self_of (R : Mat3) (hO : R.mul R.transpose = Mat3.id)
    (hD : R.det = 1) : R.transpose.mul R = Mat3.id := by
  rw [← Mat3.adjugate_eq_transpose R hO hD, Mat3.adjugate_mul_self, hD]
  rfl

theorem renormalizeQuat_of_unit (q : QuatXYZW)
    (hq : q.x * q.x + q.y * q.y + q.z * q.z + q.w * q.w = 1) :
    renormalizeQuat q = q := by
  simp only [renormalizeQuat, hq, Real.sqrt_one]
  rw [if_neg one_ne_zero]
  ext <;> simp

theorem quat_to_rot_scale (x y z w c : ℝ)
    (hq : ¬ (x * x + y * y + z * z + w * w < 1e-12))
    (hcq : ¬ (c * x * (c * x) + c * y * (c * y) + c * z * (c * z)
      + c * w * (c * w) < 1e-12)) :
    quaternion_xyzw_to_rotation_matrix ⟨c * x, c * y, c * z, c * w⟩ =
      quaternion_xyzw_to_rotation_matrix ⟨x, y, z, w⟩ := by
  have hq0 : x * x + y * y + z * z + w * w ≠ 0 := by
    intro h0
    exact hq (by rw [h0]; norm_num)
  have hcq0 : c * x * (c * x) + c * y * (c * y) + c * z * (c * z)
      + c * w * (c * w) ≠ 0 := by
    intro h0
    exact hcq (by rw [h0]; norm_num)
  simp only [quaternion_xyzw_to_rotation_matrix]
  rw [if_neg hcq, if_neg hq]
  ext <;> field_simp <;> ring

theorem quat_to_rot_wslot (M : Mat3) (X Y Z A : ℝ) (hA : 1 ≤ A)
    (hn : X * X + Y * Y + Z * Z + A * A = 4 * A)
    (h00 : Y * Y + Z * Z = 2 * A * (1 - M.m00))
    (h11 : X * X + Z * Z = 2 * A * (1 - M.m11))
    (h22 : X * X + Y * Y = 2 * A * (1 - M.m22))
    (hxy : X * Y = A * (M.m01 + M.m10)) (hZ : Z = M.m10 - M.m01)
    (hxz : X * Z = A * (M.m02 + M.m20)) (hY : Y = M.m02 - M.m20)
    (hyz : Y * Z = A * (M.m12 + M.m21)) (hX : X = M.m21 - M.m12) :
    quaternion_xyzw_to_rotation_matrix ⟨X, Y, Z, A⟩ = M := by
  have hA0 : (0 : ℝ) < A := by linarith
  have hne : ¬ (X * X + Y * Y + Z * Z + A * A < 1e-12) := by
    rw [hn]
    push_neg
    nlinarith
  simp only [quaternion_xyzw_to_rotation_matrix]
  rw [if_neg hne, hn]
  ext
  · field_simp
    linarith
  · field_simp
    linear_combination 2 * hxy - 2 * A * hZ
  · field_simp
    linear_combination 2 * hxz + 2 * A * hY
  · field_simp
    linear_combination 2 * hxy + 2 * A * hZ
  · field_simp
    linarith
  · field_simp
    linear_combination 2 * hyz - 2 * A * hX
  · field_simp
    linear_combination 2 * hxz - 2 * A * hY
  · field_simp
    linear_combination 2 * hyz + 2 * A * hX
  · field_simp
    linarith

theorem sqrt_scale_w (arg : ℝ) (h : 0 < arg) :
    0.25 * (Real.sqrt arg * 2.0) = arg / (Real.sqrt arg * 2.0) := by
  have hs1 : 0 < Real.sqrt arg := Real.sqrt_pos.mpr h
  have hsq : Real.sqrt arg * Real.sqrt arg = arg := Real.mul_self_sqrt h.le
  have hne : Real.sqrt arg * 2.0 ≠ 0 := by positivity
  field_simp
  linear_combination hsq

theorem quat_pipeline (M : Mat3) (P Q T W arg : ℝ) (harg : 1 ≤ arg)
    (hsum : P * P + Q * Q + T * T + W * W = 4 * arg)
    (hrot : quaternion_xyzw_to_rotation_matrix ⟨P, Q, T, W⟩ = M) :
    quaternion_xyzw_to_rotation_matrix (renormalizeQuat
      ⟨P / (Real.sqrt arg * 2.0), Q / (Real.sqrt arg * 2.0),
       T / (Real.sqrt arg * 2.0), W / (Real.sqrt arg * 2.0)⟩) = M := by
  have hargpos : (0 : ℝ) < arg := by linarith
  have hs1 : 0 < Real.sqrt arg := Real.sqrt_pos.mpr hargpos
  set s := Real.sqrt arg * 2.0 with hs_def
  have hspos : (0 : ℝ) < s := by rw [hs_def]; linarith
  have hsne : s ≠ 0 := ne_of_gt hspos
  have hs2 : s ^ 2 = 4 * arg := by
    rw [hs_def, mul_pow, Real.sq_sqrt hargpos.le]
    ring
  have hq1 : (P / s) * (P / s) + (Q / s) * (Q / s) + (T / s) * (T / s)
      + (W / s) * (W / s) = 1 := by
    field_simp
    linear_combination hsum - hs2
  rw [renormalizeQuat_of_unit _ hq1]
  have hqeq : (⟨P / s, Q / s, T / s, W / s⟩ : QuatXYZW)
      = ⟨(1 / s) * P, (1 / s) * Q, (1 / s) * T, (1 / s) * W⟩ := by
    ext <;> ring
  rw [hqeq]
  have hbig : ¬ (P * P + Q * Q + T * T + W * W < 1e-12) := by
    rw [hsum]
    push_neg
    nlinarith
  have hval : 1 / s * P * (1 / s * P) + 1 / s * Q * (1 / s * Q)
      + 1 / s * T * (1 / s * T) + 1 / s * W * (1 / s * W) = 1 := by
    field_simp
    linear_combination hsum - hs2
  have hscaled : ¬ (1 / s * P * (1 / s * P) + 1 / s * Q * (1 / s * Q)
      + 1 / s * T * (1 / s * T) + 1 / s * W * (1 / s * W) < 1e-12) := by
    rw [hval]
    norm_num
  rw [quat_to_rot_scale P Q T W (1 / s) hbig hscaled]
  exact hrot

theorem quat_to_rot_xslot (M : Mat3) (A Y Z W : ℝ) (hA : 1 ≤ A)
    (hn : A * A + Y * Y + Z * Z + W * W = 4 * A)
    (h00 : Y * Y + Z * Z = 2 * A * (1 - M.m00))
    (h11 : A * A + Z * Z = 2 * A * (1 - M.m11))
    (h22 : A * A + Y * Y = 2 * A * (1 - M.m22))
    (hY : Y = M.m01 + M.m10) (hwz : W * Z = A * (M.m10 - M.m01))
    (hZ : Z = M.m02 + M.m20) (hwy : W * Y = A * (M.m02 - M.m20))
    (hyz : Y * Z = A * (M.m12 + M.m21)) (hW : W = M.m21 - M.m12) :
    quaternion_xyzw_to_rotation_matrix ⟨A, Y, Z, W⟩ = M := by
  have hA0 : (0 : ℝ) < A := by linarith
  have hne : ¬ (A * A + Y * Y + Z * Z + W * W < 1e-12) := by
    rw [hn]
    push_neg
    nlinarith
  simp only [quaternion_xyzw_to_rotation_matrix]
  rw [if_neg hne, hn]
  ext
  · field_simp
    linarith
  · field_simp
    linear_combination 2 * A * hY - 2 * hwz
  · field_simp
    linear_combination 2 * A * hZ + 2 * hwy
  · field_simp
    linear_combination 2 * A * hY + 2 * hwz
  · field_simp
    linarith
  · field_simp
    linear_combination 2 * hyz - 2 * A * hW
  · field_simp
    linear_combination 2 * A * hZ - 2 * hwy
  · field_simp
    linear_combination 2 * hyz + 2 * A * hW
  · field_simp
    linarith

theorem quat_to_rot_yslot (M : Mat3) (X A Z W : ℝ) (hA : 1 ≤ A)
    (hn : X * X + A * A + Z * Z + W * W = 4 * A)
    (h00 : A * A + Z * Z = 2 * A * (1 - M.m00))
    (h11 : X * X + Z * Z = 2 * A * (1 - M.m11))
    (h22 : X * X + A * A = 2 * A * (1 - M.m22))
    (hX : X = M.m01 + M.m10) (hwz : W * Z = A * (M.m10 - M.m01))
    (hxz : X * Z = A * (M.m02 + M.m20)) (hW : W = M.m02 - M.m20)
    (hZ : Z = M.m12 + M.m21) (hwx : W * X = A * (M.m21 - M.m12)) :
    quaternion_xyzw_to_rotation_matrix ⟨X, A, Z, W⟩ = M := by
  have hA0 : (0 : ℝ) < A := by linarith
  have hne : ¬ (X * X + A * A + Z * Z + W * W < 1e-12) := by
    rw [hn]
    push_neg
    nlinarith
  simp only [quaternion_xyzw_to_rotation_matrix]
  rw [if_neg hne, hn]
  ext
  · field_simp
    linarith
  · field_simp
    linear_combination 2 * A * hX - 2 * hwz
  · field_simp
    linear_combination 2 * hxz + 2 * A * hW
  · field_simp
    linear_combination 2 * A * hX + 2 * hwz
  · field_simp
    linarith
  · field_simp
    linear_combination 2 * A * hZ - 2 * hwx
  · field_simp
    linear_combination 2 * hxz - 2 * A * hW
  · field_simp
    linear_combination 2 * A * hZ + 2 * hwx
  · field_simp
    linarith

theorem quat_to_rot_zslot (M : Mat3) (X Y A W : ℝ) (hA : 1 ≤ A)
    (hn : X * X + Y * Y + A * A + W * W = 4 * A)
    (h00 : Y * Y + A * A = 2 * A * (1 - M.m00))
    (h11 : X * X + A * A = 2 * A * (1 - M.m11))
    (h22 : X * X + Y * Y = 2 * A * (1 - M.m22))
    (hxy : X * Y = A * (M.m01 + M.m10)) (hW : W = M.m10 - M.m01)
    (hX : X = M.m02 + M.m20) (hwy : W * Y = A * (M.m02 - M.m20))
    (hY : Y = M.m12 + M.m21) (hwx : W * X = A * (M.m21 - M.m12)) :
    quaternion_xyzw_to_rotation_matrix ⟨X, Y, A, W⟩ = M := by
  have hA0 : (0 : ℝ) < A := by linarith
  have hne : ¬ (X * X + Y * Y + A * A + W * W < 1e-12) := by
    rw [hn]
    push_neg
    nlinarith
  simp only [quaternion_xyzw_to_rotation_matrix]
  rw [if_neg hne, hn]
  ext
  · field_simp
    linarith
  · field_simp
    linear_combination 2 * hxy - 2 * A * hW
  · field_simp
    linear_combination 2 * A * hX + 2 * hwy
  · field_simp
    linear_combination 2 * hxy + 2 * A * hW
  · field_simp
    linarith
  · field_simp
    linear_combination 2 * A * hY - 2 * hwx
  · field_simp
    linear_combination 2 * A * hX - 2 * hwy
  · field_simp
    linear_combination 2 * A * hY + 2 * hwx
  · field_simp
    linarith

theorem roundtrip_exact (R : Mat3) (hO : R.mul R.transpose = Mat3.id)
    (hD : R.det = 1) :
    quaternion_xyzw_to_rotation_matrix (rotation_matrix_to_quaternion_xyzw R)
      = R := by
  have hT := Mat3.transpose_mul_self_of R hO hD
  have hAdj := Mat3.adjugate_eq_transpose R hO hD
  obtain ⟨a, b, c, d, e, f, g, h, i⟩ := R
  simp only [Mat3.mul, Mat3.transpose, Mat3.id, Mat3.mk.injEq] at hO hT
  simp only [Mat3.adjugate, Mat3.transpose, Mat3.mk.injEq] at hAdj
  obtain ⟨hR1, hR4, hR5, -, hR2, hR6, -, -, hR3⟩ := hO
  obtain ⟨hC1, hC4, hC5, -, hC2, hC6, -, -, hC3⟩ := hT
  obtain ⟨hK1, hK4, hK7, hK2, hK5, hK8, hK3, hK6, hK9⟩ := hAdj
  simp only [rotation_matrix_to_quaternion_xyzw, shepperdQuat]
  split_ifs with hb1 hb2 hb3
  · -- trace > 0 branch: the scalar part carries 0.25*s
    have harg : (1 : ℝ) ≤ a + e + i + 1.0 := by linarith
    rw [sqrt_scale_w (a + e + i + 1.0) (by linarith)]
    refine quat_pipeline _ _ _ _ _ _ harg ?_ ?_
    · linear_combination hR1 + hR2 + hR3 + 2 * hK1 + 2 * hK5 + 2 * hK9
    · exact quat_to_rot_wslot _ _ _ _ _ harg
        (by linear_combination hR1 + hR2 + hR3 + 2 * hK1 + 2 * hK5 + 2 * hK9)
        (by linear_combination hR1 + hC1 + 2 * hK5 + 2 * hK9)
        (by linear_combination hR2 + hC2 + 2 * hK1 + 2 * hK9)
        (by linear_combination hR1 + hR2 + 2 * hR3 - hC1 - hC2 + 2 * hK1 + 2 * hK5)
        (by linear_combination (-1 : ℝ) * hR4 - hC4 + hK2 + hK4)
        rfl
        (by linear_combination (-1 : ℝ) * hR5 - hC5 + hK3 + hK7)
        rfl
        (by linear_combination (-1 : ℝ) * hR6 - hC6 + hK6 + hK8)
        rfl
  · -- m00 dominant branch
    push_neg at hb1
    obtain ⟨hae, hai⟩ := hb2
    have harg : (1 : ℝ) ≤ 1.0 + a - e - i := by linarith
    rw [sqrt_scale_w (1.0 + a - e - i) (by linarith)]
    refine quat_pipeline _ _ _ _ _ _ harg ?_ ?_
    · linear_combination hR1 + hR2 + hR3 + 2 * hK1 - 2 * hK5 - 2 * hK9
    · exact quat_to_rot_xslot _ _ _ _ _ harg
        (by linear_combination hR1 + hR2 + hR3 + 2 * hK1 - 2 * hK5 - 2 * hK9)
        (by linear_combination hR1 + hC1 - 2 * hK5 - 2 * hK9)
        (by linear_combination hR1 + hR3 - hC2 - 2 * hK5)
        (by linear_combination (-1 : ℝ) * hR3 + hC1 + hC2 - 2 * hK9)
        rfl
        (by linear_combination (-1 : ℝ) * hR4 + hC4 - hK2 + hK4)
        rfl
        (by linear_combination hR5 - hC5 + hK3 - hK7)
        (by linear_combination hR6 + hC6 + hK6 + hK8)
        rfl
  · -- m11 dominant branch
    push_neg at hb1 hb2
    have hae : a ≤ e := by
      rcases le_or_lt a e with hle | hlt
      · exact hle
      · exact absurd (hb2 hlt) (by linarith)
    have harg : (1 : ℝ) ≤ 1.0 + e - a - i := by linarith
    rw [sqrt_scale_w (1.0 + e - a - i) (by linarith)]
    refine quat_pipeline _ _ _ _ _ _ harg ?_ ?_
    · linear_combination hR1 + hR2 + hR3 - 2 * hK1 + 2 * hK5 - 2 * hK9
    · exact quat_to_rot_yslot _ _ _ _ _ harg
        (by linear_combination hR1 + hR2 + hR3 - 2 * hK1 + 2 * hK5 - 2 * hK9)
        (by linear_combination hR2 + hR3 - hC1 - 2 * hK1)
        (by linear_combination hR2 + hC2 - 2 * hK1 - 2 * hK9)
        (by linear_combination (-1 : ℝ) * hR3 + hC1 + hC2 - 2 * hK9)
        rfl
        (by linear_combination hR4 - hC4 - hK2 + hK4)
        (by linear_combination hR5 + hC5 + hK3 + hK7)
        rfl
        rfl
        (by linear_combination (-1 : ℝ) * hR6 + hC6 - hK6 + hK8)
  · -- m22 dominant branch
    push_neg at hb1 hb2 hb3
    have hai : a ≤ i := by
      rcases le_or_lt a e with hle | hlt
      · linarith
      · exact hb2 hlt
    have harg : (1 : ℝ) ≤ 1.0 + i - a - e := by linarith
    rw [sqrt_scale_w (1.0 + i - a - e) (by linarith)]
    refine quat_pipeline _ _ _ _ _ _ harg ?_ ?_
    · linear_combination hR1 + hR2 + hR3 - 2 * hK1 - 2 * hK5 + 2 * hK9
    · exact quat_to_rot_zslot _ _ _ _ _ harg
        (by linear_combination hR1 + hR2 + hR3 - 2 * hK1 - 2 * hK5 + 2 * hK9)
        (by linear_combination hR2 + hR3 - hC1 - 2 * hK1)
        (by linear_combination hR1 + hR3 - hC2 - 2 * hK5)
        (by linear_combination hR1 + hR2 + 2 * hR3 - hC1 - hC2 - 2 * hK1 - 2 * hK5)
        (by linear_combination hR4 + hC4 + hK2 + hK4)
        rfl
        rfl
        (by linear_combination (-1 : ℝ) * hR5 + hC5 + hK3 - hK7)
        rfl
        (by linear_combination hR6 - hC6 - hK6 + hK8)

/-- C3: for every orthonormal matrix `R` with determinant `+1`, converting
to a quaternion and back reproduces `R` elementwise within `1e-9` (in the
real-number model the round trip is exact, so the tolerance holds). -/
theorem rotation_quaternion_roundtrip (R : Mat3)
    (hO : R.mul R.transpose = Mat3.id) (hD : R.det = 1) :
    Mat3.entrywiseWithin
      (quaternion_xyzw_to_rotation_matrix (rotation_matrix_to_quaternion_xyzw R))
      R 1e-9 := by
  rw [roundtrip_exact R hO hD]
  unfold Mat3.entrywiseWithin
  norm_num

/-- Witness for C3 at the identity rotation. -/
theorem rotation_quaternion_roundtrip_witness :
    Mat3.entrywiseWithin
      (quaternion_xyzw_to_rotation_matrix
        (rotation_matrix_to_quaternion_xyzw Mat3.id))
      Mat3.id 1e-9 :=
  rotation_quaternion_roundtrip Mat3.id
    (by ext <;> simp [Mat3.mul, Mat3.transpose, Mat3.id])
    (by norm_num [Mat3.det, Mat3.id])
